import Mathlib

/-!
Verification of the VideoBarcode frame-sampling and assembly pipeline
(src/main.py) against its specification.

The embedding follows the source closely:
- Python floats are modelled as exact rationals.
- Python int(x) truncation toward zero is pyTrunc.
- The OpenCV video capture is modelled as a Video record with a frame
  table, a read cursor, and a real-valued total frame count; seeking and
  reading are explicit state transitions, and every seek, read and
  release performed by makeBarcode is recorded in an event trace.
- External image operations (cv2.resize, cv2.filter2D) are parameters of
  the embedded functions; cv2.hconcat is modelled concretely since the
  assembly claims depend on it.
- Python exceptions are the PyErr sum type; string + float concatenation
  (which raises TypeError in Python) is modelled by pyAdd.
-/

set_option maxRecDepth 4096

namespace VideoBarcode

/-- A decoded raster image: shape is (height, width), so shape[0] is the
height. Pixel contents are rationals indexed by row and column. -/
structure Image where
  height : ℕ
  width : ℕ
  pix : ℕ → ℕ → ℚ

/-- A convolution kernel: a rows-by-cols rational matrix. -/
structure Kernel where
  rows : ℕ
  cols : ℕ
  entry : ℕ → ℕ → ℚ

/-- Python exceptions raised by the program. The IOError raised in the
main loop of makeBarcode interpolates the truncated frame index and the
total frame count into its message; the constructor carries exactly those
two values. -/
inductive PyErr where
  | fileNotFound : String → PyErr
  | valueError : String → PyErr
  | typeError : String → PyErr
  | indexError : String → PyErr
  | ioErrorMsg : String → PyErr
  | ioErrorFrame : ℤ → ℚ → PyErr
deriving DecidableEq

/-- The nFrames argument as it arrives from Python: either an int or a
float (argparse produces an int, but getInterval checks the type). -/
inductive PyNum where
  | int : ℤ → PyNum
  | float : ℚ → PyNum
deriving DecidableEq

/-- Numeric value of a PyNum, for comparisons. -/
def PyNum.toRat : PyNum → ℚ
  | .int n => (n : ℚ)
  | .float q => q

/-- The isinstance(x, int) check. -/
def PyNum.isInt : PyNum → Bool
  | .int _ => true
  | .float _ => false

/-- Loop bound extracted from a validated nFrames (only reached when
nFrames is a nonnegative int). -/
def PyNum.loopCount : PyNum → ℕ
  | .int n => n.toNat
  | .float _ => 0

/-- Python values taking part in string concatenation. -/
inductive PyVal where
  | vstr : String → PyVal
  | vfloat : ℚ → PyVal
deriving DecidableEq

/-- Python + on strings and floats: str + str concatenates, str + float
raises TypeError (this is what happens on line 107 of main.py, where the
float totalFrames is concatenated into the error message). -/
def pyAdd : PyVal → PyVal → Except PyErr PyVal
  | .vstr a, .vstr b => .ok (.vstr (a ++ b))
  | .vstr _, .vfloat _ =>
      .error (.typeError "can only concatenate str (not float) to str")
  | .vfloat _, .vstr _ =>
      .error (.typeError "unsupported operand types for +: float and str")
  | .vfloat a, .vfloat b => .ok (.vfloat (a + b))

/-- Python int(x) applied to a float: truncation toward zero. -/
def pyTrunc (q : ℚ) : ℤ :=
  if 0 ≤ q then ⌊q⌋ else ⌈q⌉

/-- An opened cv2.VideoCapture: a real-valued total frame count (the
CAP_PROP_FRAME_COUNT property), a decode table mapping frame indices to
decoded images (none = the read at that index fails), and the current
read cursor (CAP_PROP_POS_FRAMES). -/
structure Video where
  totalFrames : ℚ
  frameAt : ℤ → Option Image
  pos : ℤ

/-- video.set(cv2.CAP_PROP_POS_FRAMES, i): move the read cursor. -/
def videoSet (v : Video) (i : ℤ) : Video :=
  { v with pos := i }

/-- video.read(): decode the frame at the cursor; on success the cursor
advances by one. -/
def videoRead (v : Video) : Option Image × Video :=
  match v.frameAt v.pos with
  | some f => (some f, { v with pos := v.pos + 1 })
  | none => (none, v)

/-- Observable events of one makeBarcode run: cursor seeks, frame reads
(index and success flag), and the release of the video handle. -/
inductive Ev where
  | seek : ℤ → Ev
  | read : ℤ → Bool → Ev
  | release : Ev
deriving DecidableEq

/-- cv2.hconcat of two images: widths add, the left image supplies the
height, columns of the right image are shifted past the left image. -/
def hconcat (a b : Image) : Image :=
  { height := a.height
    width := a.width + b.width
    pix := fun r c => if c < a.width then a.pix r c else b.pix r (c - a.width) }

/-- One assembly step of the main loop: the first slice initialises the
output, later slices are hconcat-ed onto its right edge. -/
def appendSlice : Option Image → Image → Option Image
  | none, s => some s
  | some o, s => some (hconcat o s)

/-- getVideoFile: cv2.VideoCapture(source) either yields an opened video
or is not opened, in which case FileNotFoundError is raised. -/
def getVideoFile : Option Video → Except PyErr Video
  | some v => .ok v
  | none => .error (.fileNotFound "Video not found")

/-- getInterval from main.py: reads the total frame count, validates
nFrames (positive int, not exceeding the total), and returns the pair
(interval, totalFrames) with interval = totalFrames / nFrames in exact
real division. The over-count branch builds its message by concatenating
the float totalFrames into a string, via pyAdd. -/
def getInterval (totalFrames : ℚ) (nFrames : PyNum) : Except PyErr (ℚ × ℚ) :=
  if nFrames.toRat < 1 ∨ nFrames.isInt = false then
    .error (.valueError "nFrames must be an integer greater than zero")
  else if totalFrames < nFrames.toRat then
    match pyAdd (.vstr "nFrames is larger than the total available (")
        (.vfloat totalFrames) with
    | .error e => .error e
    | .ok m1 =>
      match pyAdd m1 (.vstr ")") with
      | .error e => .error e
      | .ok (.vstr m) => .error (.valueError m)
      | .ok (.vfloat _) => .error (.typeError "exception message must be a str")
  else
    .ok (totalFrames / nFrames.toRat, totalFrames)

/-- getHeight from main.py: one probe read at the current cursor; the
height is shape[0] of the decoded image. Returns the updated video and
the trace of the probe read. -/
def getHeight (v : Video) : Except PyErr (ℕ × Video) × List Ev :=
  match videoRead v with
  | (some image, v2) => (.ok (image.height, v2), [Ev.read v.pos true])
  | (none, _) => (.error (.ioErrorMsg "Cannot read from video file"), [Ev.read v.pos false])

/-- Height resolution in makeBarcode: a user-supplied height is used as
is; otherwise getHeight performs the probe read. -/
def heightProbe (v : Video) : Option ℕ → Except PyErr (ℕ × Video) × List Ev
  | some h => (.ok (h, v), [])
  | none => getHeight v

/-- The sequence of float values taken by the nextFrame variable:
initialised to interval / 2 and advanced by += interval once per loop
iteration (lines 49 and 77 of main.py). -/
def nextFramePos (interval : ℚ) : ℕ → ℚ
  | 0 => interval / 2
  | k + 1 => nextFramePos interval k + interval

/-- The main while loop of makeBarcode, by recursion on the number of
frames still to render. Each iteration seeks to int(nextFrame), reads,
raises IOError with the truncated index and the total frame count on a
failed read, otherwise resizes the frame and appends the slice, then
advances nextFrame by interval. Returns the loop result and the
accumulated event trace. -/
def barcodeLoop (resize : Image → ℕ → ℕ → Image) (w h : ℕ)
    (totalFrames interval : ℚ) :
    ℕ → ℚ → Option Image → Video → List Ev →
    Except PyErr (Option Image) × List Ev
  | 0, _, out, _, tr => (.ok out, tr)
  | m + 1, nextFrame, out, v, tr =>
    let idx := pyTrunc nextFrame
    match videoRead (videoSet v idx) with
    | (none, _) =>
        (.error (.ioErrorFrame idx totalFrames), tr ++ [Ev.seek idx, Ev.read idx false])
    | (some image, v2) =>
        barcodeLoop resize w h totalFrames interval m (nextFrame + interval)
          (appendSlice out (resize image w h)) v2 (tr ++ [Ev.seek idx, Ev.read idx true])

/-- numpy.zeros((n, m)): fails with ValueError on negative dimensions. -/
def npZeros (n m : ℤ) : Except PyErr Kernel :=
  if n < 0 ∨ m < 0 then .error (.valueError "negative dimensions are not allowed")
  else .ok ⟨n.toNat, m.toNat, fun _ _ => 0⟩

/-- The slice assignment kernel[:, c] = numpy.ones(rows): fills column c
with ones. Negative c indexes from the right as in Python; an index
outside [-cols, cols) raises IndexError. -/
def kernelSetColOnes (k : Kernel) (c : ℤ) : Except PyErr Kernel :=
  if 0 ≤ c ∧ c < (k.cols : ℤ) then
    .ok ⟨k.rows, k.cols, fun i j => if (j : ℤ) = c then 1 else k.entry i j⟩
  else if -(k.cols : ℤ) ≤ c ∧ c < 0 then
    .ok ⟨k.rows, k.cols, fun i j => if (j : ℤ) = (k.cols : ℤ) + c then 1 else k.entry i j⟩
  else
    .error (.indexError "index is out of bounds for axis 1")

/-- kernel /= amount: divide every entry by the scalar. -/
def kernelDivScalar (k : Kernel) (a : ℚ) : Kernel :=
  ⟨k.rows, k.cols, fun i j => k.entry i j / a⟩

/-- addBlur from main.py: build an amount-by-amount zero matrix, fill
column int((amount - 1) / 2) with ones, divide by amount, and apply the
external 2D filter with the resulting kernel. -/
def addBlur (filter2D : Image → Kernel → Image) (image : Image) (amount : ℤ) :
    Except PyErr Image :=
  match npZeros amount amount with
  | .error e => .error e
  | .ok k0 =>
    match kernelSetColOnes k0 (pyTrunc (((amount : ℚ) - 1) / 2)) with
    | .error e => .error e
    | .ok k1 => .ok (filter2D image (kernelDivScalar k1 (amount : ℚ)))

/-- The tail of makeBarcode: if blur is nonzero, addBlur is applied to
the assembled output (in Python a run with an empty output would pass
None to addBlur and fail; that branch is unreachable once nFrames has
been validated). -/
def blurStep (filter2D : Image → Kernel → Image) (blur : ℤ)
    (out : Option Image) : Except PyErr (Option Image) :=
  if blur ≠ 0 then
    match out with
    | none => .error (.typeError "unsupported operand type: NoneType")
    | some o =>
      match addBlur filter2D o blur with
      | .error e => .error e
      | .ok o2 => .ok (some o2)
  else .ok out

/-- makeBarcode from main.py: open the video, validate nFrames and
compute the interval, resolve the height (probe read if the user gave
none), run the sampling loop starting at nextFrame = interval / 2,
release the handle after the loop completes, then optionally blur.
Returns the result together with the full event trace of the run. -/
def makeBarcode (resize : Image → ℕ → ℕ → Image)
    (filter2D : Image → Kernel → Image) (openRes : Option Video)
    (nFrames : PyNum) (blur : ℤ) (width : ℕ) (height : Option ℕ) :
    Except PyErr (Option Image) × List Ev :=
  match getVideoFile openRes with
  | .error e => (.error e, [])
  | .ok video =>
    match getInterval video.totalFrames nFrames with
    | .error e => (.error e, [])
    | .ok (interval, totalFrames) =>
      match heightProbe video height with
      | (.error e, tr) => (.error e, tr)
      | (.ok (h, v1), tr) =>
        match barcodeLoop resize width h totalFrames interval
            nFrames.loopCount (interval / 2) none v1 tr with
        | (.error e, tr2) => (.error e, tr2)
        | (.ok out, tr2) => (blurStep filter2D blur out, tr2 ++ [Ev.release])

/-- The assembled (unblurred) output of a fully successful run: the left
fold of appendSlice over the slices in sampling order, slice k being the
frame decoded at index int(nextFramePos interval k) resized to (w, h). -/
def assembledOutput (resize : Image → ℕ → ℕ → Image) (F : ℤ → Image)
    (interval : ℚ) (w h n : ℕ) : Option Image :=
  ((List.range n).map
      (fun k => resize (F (pyTrunc (nextFramePos interval k))) w h)).foldl
    appendSlice none

/-- The seek and read events of a fully successful sampling loop of n
iterations: step k seeks to and reads the truncated position k. -/
def sampleTrace (interval : ℚ) (n : ℕ) : List Ev :=
  (List.range n).flatMap
    (fun k => [Ev.seek (pyTrunc (nextFramePos interval k)),
               Ev.read (pyTrunc (nextFramePos interval k)) true])

/-- Modelled from the spec: the BlurKernel of section 3, a square matrix
of size amount-by-amount, zero everywhere except column (amount - 1) / 2
(integer division), which is filled with 1 / amount. Compared against
the kernel addBlur actually builds. -/
def specBlurKernel (amount : ℤ) : Kernel :=
  ⟨amount.toNat, amount.toNat,
   fun _ j => if (j : ℤ) = (amount - 1) / 2 then 1 / (amount : ℚ) else 0⟩

/-- Concrete resize model for witnesses: produces an image of exactly
the requested dimensions. -/
def resizeModel (img : Image) (w h : ℕ) : Image :=
  ⟨h, w, fun r c => img.pix r c⟩

/-- Concrete filter model for witnesses. -/
def filterModel (img : Image) (_k : Kernel) : Image := img

/-- A constant test frame of native height 4 and width 6. -/
def grayImage : Image := ⟨4, 6, fun _ _ => 1 / 2⟩

/-- A 10-frame video on which every read succeeds. -/
def goodVideo : Video := ⟨10, fun _ => some grayImage, 0⟩

/-- A 10-frame video on which every read fails. -/
def badVideo : Video := ⟨10, fun _ => none, 0⟩

/-- A 10-frame video that decodes frames 0, 1 and 2 and fails from
frame 3 on. -/
def mixedVideo : Video := ⟨10, fun i => if i < 3 then some grayImage else none, 0⟩

/-! Helper lemmas about the loop and its collaborators. -/

theorem nextFramePos_succ (interval : ℚ) (k : ℕ) :
    nextFramePos interval (k + 1) = nextFramePos interval k + interval := rfl

theorem nextFramePos_closed (interval : ℚ) (k : ℕ) :
    nextFramePos interval k = interval / 2 + k * interval := by
  induction k with
  | zero => simp [nextFramePos]
  | succ k ih =>
    rw [nextFramePos_succ, ih]
    push_cast
    ring

theorem barcodeLoop_ok (resize : Image → ℕ → ℕ → Image) (w h : ℕ)
    (tf interval : ℚ) (F : ℤ → Image) (m : ℕ) :
    ∀ (k0 : ℕ) (out : Option Image) (v : Video) (tr : List Ev),
    (∀ i, v.frameAt i = some (F i)) →
    barcodeLoop resize w h tf interval m (nextFramePos interval k0) out v tr =
      (.ok (((List.range m).map (fun j =>
          resize (F (pyTrunc (nextFramePos interval (k0 + j)))) w h)).foldl
          appendSlice out),
       tr ++ (List.range m).flatMap (fun j =>
          [Ev.seek (pyTrunc (nextFramePos interval (k0 + j))),
           Ev.read (pyTrunc (nextFramePos interval (k0 + j))) true])) := by
  induction m with
  | zero =>
    intro k0 out v tr hF
    simp [barcodeLoop]
  | succ m ih =>
    intro k0 out v tr hF
    rw [barcodeLoop]
    simp only [videoRead, videoSet, hF]
    rw [← nextFramePos_succ]
    have hF2 : ∀ i, (Video.mk v.totalFrames v.frameAt
        (pyTrunc (nextFramePos interval k0) + 1)).frameAt i = some (F i) := hF
    rw [ih (k0 + 1) _ _ _ hF2]
    rw [List.range_succ_eq_map, List.map_cons, List.foldl_cons, List.flatMap_cons,
      List.map_map, List.flatMap_map]
    have e1 : (fun j => resize (F (pyTrunc (nextFramePos interval (k0 + j)))) w h)
        ∘ Nat.succ
        = fun j => resize (F (pyTrunc (nextFramePos interval (k0 + 1 + j)))) w h := by
      funext j
      have ej : k0 + Nat.succ j = k0 + 1 + j := by omega
      show resize (F (pyTrunc (nextFramePos interval (k0 + Nat.succ j)))) w h = _
      rw [ej]
    have e2 : (fun a : ℕ => [Ev.seek (pyTrunc (nextFramePos interval (k0 + Nat.succ a))),
          Ev.read (pyTrunc (nextFramePos interval (k0 + Nat.succ a))) true])
        = fun a : ℕ => [Ev.seek (pyTrunc (nextFramePos interval (k0 + 1 + a))),
          Ev.read (pyTrunc (nextFramePos interval (k0 + 1 + a))) true] := by
      funext a
      have ej : k0 + Nat.succ a = k0 + 1 + a := by omega
      rw [ej]
    rw [e1, e2]
    simp only [Nat.add_zero, List.append_assoc]

theorem barcodeLoop_fail (resize : Image → ℕ → ℕ → Image) (w h : ℕ)
    (tf interval : ℚ) (F : ℤ → Image) (j : ℕ) :
    ∀ (m k0 : ℕ) (out : Option Image) (v : Video) (tr : List Ev),
    j < m →
    (∀ i, i < j → v.frameAt (pyTrunc (nextFramePos interval (k0 + i))) =
        some (F (pyTrunc (nextFramePos interval (k0 + i))))) →
    v.frameAt (pyTrunc (nextFramePos interval (k0 + j))) = none →
    barcodeLoop resize w h tf interval m (nextFramePos interval k0) out v tr =
      (.error (.ioErrorFrame (pyTrunc (nextFramePos interval (k0 + j))) tf),
       tr ++ (List.range j).flatMap (fun i =>
          [Ev.seek (pyTrunc (nextFramePos interval (k0 + i))),
           Ev.read (pyTrunc (nextFramePos interval (k0 + i))) true]) ++
       [Ev.seek (pyTrunc (nextFramePos interval (k0 + j))),
        Ev.read (pyTrunc (nextFramePos interval (k0 + j))) false]) := by
  induction j with
  | zero =>
    intro m k0 out v tr hm hok hbad
    rw [Nat.add_zero] at hbad ⊢
    match m, hm with
    | m + 1, _ =>
      rw [barcodeLoop]
      simp only [videoRead, videoSet, hbad, List.range_zero, List.flatMap_nil,
        List.append_nil]
  | succ j ih =>
    intro m k0 out v tr hm hok hbad
    match m, hm with
    | m + 1, hm =>
      rw [barcodeLoop]
      have h0 : v.frameAt (pyTrunc (nextFramePos interval k0)) =
          some (F (pyTrunc (nextFramePos interval k0))) := by
        have := hok 0 (Nat.succ_pos j)
        rwa [Nat.add_zero] at this
      simp only [videoRead, videoSet, h0]
      rw [← nextFramePos_succ]
      have hok2 : ∀ i, i < j →
          v.frameAt (pyTrunc (nextFramePos interval ((k0 + 1) + i))) =
            some (F (pyTrunc (nextFramePos interval ((k0 + 1) + i)))) := by
        intro i hi
        have ei : (k0 + 1) + i = k0 + (i + 1) := by omega
        rw [ei]
        exact hok (i + 1) (by omega)
      have hbad2 : v.frameAt (pyTrunc (nextFramePos interval ((k0 + 1) + j))) = none := by
        have ei : (k0 + 1) + j = k0 + (j + 1) := by omega
        rw [ei]
        exact hbad
      have hv2 : ∀ i, i < j → (Video.mk v.totalFrames v.frameAt
          (pyTrunc (nextFramePos interval k0) + 1)).frameAt
            (pyTrunc (nextFramePos interval ((k0 + 1) + i))) =
          some (F (pyTrunc (nextFramePos interval ((k0 + 1) + i)))) := hok2
      rw [ih m (k0 + 1) _ _ _ (by omega) hv2 hbad2]
      rw [List.range_succ_eq_map, List.flatMap_cons, List.flatMap_map]
      have e2 : (fun a : ℕ => [Ev.seek (pyTrunc (nextFramePos interval (k0 + Nat.succ a))),
            Ev.read (pyTrunc (nextFramePos interval (k0 + Nat.succ a))) true])
          = fun a : ℕ => [Ev.seek (pyTrunc (nextFramePos interval (k0 + 1 + a))),
            Ev.read (pyTrunc (nextFramePos interval (k0 + 1 + a))) true] := by
        funext a
        have ej : k0 + Nat.succ a = k0 + 1 + a := by omega
        rw [ej]
      rw [e2]
      have ejj : k0 + (j + 1) = k0 + 1 + j := by omega
      rw [ejj]
      simp only [Nat.add_zero, List.append_assoc]

/-- Validation success: for an int nFrames with 1 <= nFrames <= totalFrames,
getInterval returns (totalFrames / nFrames, totalFrames). -/
theorem getInterval_ok (tf : ℚ) (n : ℕ) (h1 : 1 ≤ n) (h2 : (n : ℚ) ≤ tf) :
    getInterval tf (PyNum.int n) = .ok (tf / n, tf) := by
  have ht : (PyNum.int (n : ℤ)).toRat = (n : ℚ) := by
    simp [PyNum.toRat]
  unfold getInterval
  rw [ht]
  have hn1 : ¬ ((n : ℚ) < 1 ∨ (PyNum.int (n : ℤ)).isInt = false) := by
    push_neg
    refine ⟨?_, by simp [PyNum.isInt]⟩
    exact_mod_cast h1
  rw [if_neg hn1, if_neg (not_lt.mpr h2)]

theorem makeBarcode_run (resize : Image → ℕ → ℕ → Image)
    (filter2D : Image → Kernel → Image) (v : Video) (F : ℤ → Image)
    (n w h : ℕ) (blur : ℤ)
    (hF : ∀ i, v.frameAt i = some (F i)) (h1 : 1 ≤ n)
    (h2 : (n : ℚ) ≤ v.totalFrames) :
    makeBarcode resize filter2D (some v) (PyNum.int n) blur w (some h) =
      (blurStep filter2D blur
        (assembledOutput resize F (v.totalFrames / n) w h n),
       sampleTrace (v.totalFrames / n) n ++ [Ev.release]) := by
  have hgi := getInterval_ok v.totalFrames n h1 h2
  have hc : (PyNum.int (n : ℤ)).loopCount = n := by
    simp [PyNum.loopCount]
  simp only [makeBarcode, getVideoFile, hgi, heightProbe, hc]
  rw [show v.totalFrames / (n : ℚ) / 2 = nextFramePos (v.totalFrames / n) 0 from rfl]
  rw [barcodeLoop_ok resize w h v.totalFrames (v.totalFrames / n) F n 0 none v [] hF]
  simp only [Nat.zero_add, List.nil_append]
  rfl

theorem makeBarcode_fail (resize : Image → ℕ → ℕ → Image)
    (filter2D : Image → Kernel → Image) (v : Video) (F : ℤ → Image)
    (n w h j : ℕ) (blur : ℤ)
    (h1 : 1 ≤ n) (h2 : (n : ℚ) ≤ v.totalFrames) (hj : j < n)
    (hok : ∀ i, i < j →
        v.frameAt (pyTrunc (nextFramePos (v.totalFrames / n) i)) =
          some (F (pyTrunc (nextFramePos (v.totalFrames / n) i))))
    (hbad : v.frameAt (pyTrunc (nextFramePos (v.totalFrames / n) j)) = none) :
    makeBarcode resize filter2D (some v) (PyNum.int n) blur w (some h) =
      (.error (.ioErrorFrame (pyTrunc (nextFramePos (v.totalFrames / n) j))
          v.totalFrames),
       sampleTrace (v.totalFrames / n) j ++
       [Ev.seek (pyTrunc (nextFramePos (v.totalFrames / n) j)),
        Ev.read (pyTrunc (nextFramePos (v.totalFrames / n) j)) false]) := by
  have hgi := getInterval_ok v.totalFrames n h1 h2
  have hc : (PyNum.int (n : ℤ)).loopCount = n := by
    simp [PyNum.loopCount]
  simp only [makeBarcode, getVideoFile, hgi, heightProbe, hc]
  rw [show v.totalFrames / (n : ℚ) / 2 = nextFramePos (v.totalFrames / n) 0 from rfl]
  have hok0 : ∀ i, i < j →
      v.frameAt (pyTrunc (nextFramePos (v.totalFrames / n) (0 + i))) =
        some (F (pyTrunc (nextFramePos (v.totalFrames / n) (0 + i)))) := by
    intro i hi
    rw [Nat.zero_add]
    exact hok i hi
  have hbad0 : v.frameAt (pyTrunc (nextFramePos (v.totalFrames / n) (0 + j))) = none := by
    rw [Nat.zero_add]
    exact hbad
  rw [barcodeLoop_fail resize w h v.totalFrames (v.totalFrames / n) F j n 0 none v []
    hj hok0 hbad0]
  simp only [Nat.zero_add, List.nil_append]
  rfl

/-! Dimensions of the assembled output. -/

theorem foldl_appendSlice_dims (w h : ℕ) :
    ∀ (l : List Image), (∀ s ∈ l, s.width = w ∧ s.height = h) →
    ∀ (o O : Image), l.foldl appendSlice (some o) = some O →
    O.width = o.width + l.length * w ∧ O.height = o.height := by
  intro l
  induction l with
  | nil =>
    intro _ o O hO
    simp only [List.foldl_nil, Option.some_inj] at hO
    subst hO
    simp
  | cons s rest ih =>
    intro hl o O hO
    simp only [List.foldl_cons, appendSlice] at hO
    have hrest : ∀ t ∈ rest, t.width = w ∧ t.height = h := by
      intro t ht
      exact hl t (List.mem_cons_of_mem s ht)
    have hs : s.width = w ∧ s.height = h := hl s (List.mem_cons_self s rest)
    obtain ⟨hW, hH⟩ := ih hrest (hconcat o s) O hO
    refine ⟨?_, ?_⟩
    · rw [hW]
      simp only [hconcat, List.length_cons, hs.1]
      ring
    · rw [hH]
      rfl

theorem foldl_appendSlice_some :
    ∀ (l : List Image) (o : Image), ∃ O, l.foldl appendSlice (some o) = some O := by
  intro l
  induction l with
  | nil =>
    intro o
    exact ⟨o, rfl⟩
  | cons s rest ih =>
    intro o
    simpa only [List.foldl_cons, appendSlice] using ih (hconcat o s)

theorem assembledOutput_dims (resize : Image → ℕ → ℕ → Image) (F : ℤ → Image)
    (interval : ℚ) (w h n : ℕ) (h1 : 1 ≤ n)
    (hres : ∀ img, (resize img w h).width = w ∧ (resize img w h).height = h) :
    ∀ O, assembledOutput resize F interval w h n = some O →
      O.width = n * w ∧ O.height = h := by
  intro O hO
  match n, h1 with
  | m + 1, _ =>
    unfold assembledOutput at hO
    rw [List.range_succ_eq_map, List.map_cons, List.foldl_cons, List.map_map] at hO
    simp only [appendSlice] at hO
    have hall : ∀ s ∈ ((List.range m).map
        ((fun k => resize (F (pyTrunc (nextFramePos interval k))) w h) ∘ Nat.succ)),
        s.width = w ∧ s.height = h := by
      intro s hs
      obtain ⟨k, _, hk⟩ := List.mem_map.mp hs
      rw [← hk]
      exact hres _
    obtain ⟨hW, hH⟩ := foldl_appendSlice_dims w h _ hall _ O hO
    constructor
    · rw [hW, (hres (F (pyTrunc (nextFramePos interval 0)))).1]
      simp
      ring
    · rw [hH, (hres (F (pyTrunc (nextFramePos interval 0)))).2]

theorem assembledOutput_some (resize : Image → ℕ → ℕ → Image) (F : ℤ → Image)
    (interval : ℚ) (w h n : ℕ) (h1 : 1 ≤ n) :
    ∃ O, assembledOutput resize F interval w h n = some O := by
  match n, h1 with
  | m + 1, _ =>
    unfold assembledOutput
    rw [List.range_succ_eq_map, List.map_cons, List.foldl_cons]
    simp only [appendSlice]
    exact foldl_appendSlice_some _ _

/-! The blur kernel actually built by addBlur. -/

theorem pyTrunc_of_nonneg (q : ℚ) (hq : 0 ≤ q) : pyTrunc q = ⌊q⌋ := by
  unfold pyTrunc
  exact if_pos hq

theorem pyTrunc_center (a : ℤ) (ha : 1 ≤ a) :
    pyTrunc (((a : ℚ) - 1) / 2) = (a - 1) / 2 := by
  rw [pyTrunc_of_nonneg]
  · have hcast : ((a : ℚ) - 1) = ((a - 1 : ℤ) : ℚ) := by push_cast; ring
    rw [hcast]
    exact_mod_cast Rat.floor_intCast_div_natCast (a - 1) 2
  · have h1a : (1 : ℚ) ≤ (a : ℚ) := by exact_mod_cast ha
    exact div_nonneg (by linarith) (by norm_num)

theorem addBlur_neg (filter2D : Image → Kernel → Image) (img : Image) (b : ℤ)
    (hb : b < 0) :
    addBlur filter2D img b =
      .error (.valueError "negative dimensions are not allowed") := by
  have hz : npZeros b b = .error (.valueError "negative dimensions are not allowed") := by
    unfold npZeros
    rw [if_pos (Or.inl hb)]
  unfold addBlur
  rw [hz]

theorem addBlur_pos (filter2D : Image → Kernel → Image) (img : Image) (a : ℤ)
    (ha : 1 ≤ a) :
    addBlur filter2D img a = .ok (filter2D img (specBlurKernel a)) := by
  have hz : npZeros a a = .ok ⟨a.toNat, a.toNat, fun _ _ => 0⟩ := by
    unfold npZeros
    rw [if_neg]
    push_neg
    omega
  have hc := pyTrunc_center a ha
  have hcol : 0 ≤ (a - 1) / 2 ∧ (a - 1) / 2 < ((a.toNat : ℕ) : ℤ) := by
    have hle : (a - 1) / 2 ≤ a - 1 := Int.ediv_le_self _ (by omega)
    have hnn : 0 ≤ (a - 1) / 2 := Int.ediv_nonneg (by omega) (by norm_num)
    omega
  have hsc : kernelSetColOnes ⟨a.toNat, a.toNat, fun _ _ => 0⟩ ((a - 1) / 2) =
      .ok ⟨a.toNat, a.toNat,
        fun i j => if (j : ℤ) = (a - 1) / 2 then 1 else (fun _ _ => (0 : ℚ)) i j⟩ := by
    unfold kernelSetColOnes
    rw [if_pos hcol]
  have hk : kernelDivScalar ⟨a.toNat, a.toNat,
      fun i j => if (j : ℤ) = (a - 1) / 2 then 1 else (fun _ _ => (0 : ℚ)) i j⟩ (a : ℚ) =
      specBlurKernel a := by
    unfold kernelDivScalar specBlurKernel
    have hfun : (fun (i j : ℕ) => (if ((j : ℤ) = (a - 1) / 2) then (1 : ℚ)
        else (fun (_ _ : ℕ) => (0 : ℚ)) i j) / (a : ℚ))
        = fun (_ j : ℕ) => if ((j : ℤ) = (a - 1) / 2) then 1 / (a : ℚ) else 0 := by
      funext i j
      split_ifs
      · rfl
      · exact zero_div _
    rw [hfun]
  simp only [addBlur, hz, hc, hsc, hk]

theorem blurStep_zero (filter2D : Image → Kernel → Image) (out : Option Image) :
    blurStep filter2D 0 out = .ok out := by
  simp [blurStep]

theorem blurStep_pos (filter2D : Image → Kernel → Image) (o : Image) (k : ℤ)
    (hk : 1 ≤ k) :
    blurStep filter2D k (some o) = .ok (some (filter2D o (specBlurKernel k))) := by
  have hk0 : k ≠ 0 := by omega
  simp only [blurStep, ne_eq, hk0, not_false_eq_true, if_true]
  rw [addBlur_pos filter2D o k hk]

/-! Claim theorems. -/

/-- Claim C1: for every opened video and every valid nFrames with
1 <= nFrames <= totalFrames, with interval = totalFrames / nFrames in
real-valued division, the sample position used at loop step k (the value
of the nextFrame variable, initialised to interval / 2 and advanced by
repeated addition of interval) equals the closed form
interval / 2 + k * interval for every k, the positions are strictly
increasing, every position sampled by the loop lies in [0, totalFrames),
and the frame the loop seeks to and reads at step k is the integer
truncation of that position (witnessed by the event trace of the loop). -/
theorem c1_sample_positions (resize : Image → ℕ → ℕ → Image) (v : Video)
    (F : ℤ → Image) (totalFrames interval : ℚ) (n w h : ℕ)
    (hF : ∀ i, v.frameAt i = some (F i))
    (h1 : 1 ≤ n) (h2 : (n : ℚ) ≤ totalFrames)
    (hi : interval = totalFrames / n) :
    (∀ k, nextFramePos interval k = interval / 2 + k * interval) ∧
    (∀ j k, j < k → nextFramePos interval j < nextFramePos interval k) ∧
    (∀ k, k < n → 0 ≤ nextFramePos interval k ∧ nextFramePos interval k < totalFrames) ∧
    (barcodeLoop resize w h totalFrames interval n (interval / 2) none v []).2 =
      sampleTrace interval n := by
  have hnq : (0 : ℚ) < n := by exact_mod_cast h1
  have htf : (0 : ℚ) < totalFrames := lt_of_lt_of_le hnq h2
  have hipos : 0 < interval := by
    rw [hi]
    exact div_pos htf hnq
  have hmul : interval * n = totalFrames := by
    rw [hi]
    field_simp
  refine ⟨nextFramePos_closed interval, ?_, ?_, ?_⟩
  · intro j k hjk
    rw [nextFramePos_closed, nextFramePos_closed]
    have hjk2 : (j : ℚ) < k := by exact_mod_cast hjk
    have := mul_lt_mul_of_pos_right hjk2 hipos
    linarith
  · intro k hk
    rw [nextFramePos_closed]
    constructor
    · have hk0 : (0 : ℚ) ≤ (k : ℚ) * interval :=
        mul_nonneg (Nat.cast_nonneg k) hipos.le
      linarith
    · have hk1 : (k : ℚ) ≤ (n : ℚ) - 1 := by
        have hkn : (k + 1 : ℕ) ≤ n := hk
        have hkc : ((k + 1 : ℕ) : ℚ) ≤ ((n : ℕ) : ℚ) := by exact_mod_cast hkn
        push_cast at hkc
        linarith
      have hle := mul_le_mul_of_nonneg_right hk1 hipos.le
      have hexp : ((n : ℚ) - 1) * interval = interval * n - interval := by ring
      linarith
  · rw [show interval / 2 = nextFramePos interval 0 from rfl,
      barcodeLoop_ok resize w h totalFrames interval F n 0 none v [] hF]
    simp only [Nat.zero_add, List.nil_append]
    rfl

/-- Witness for C1 at a concrete input: a 10-frame video sampled with
nFrames = 2, interval = 5. -/
theorem c1_sample_positions_witness :
    (∀ k, nextFramePos 5 k = 5 / 2 + k * 5) ∧
    (∀ j k, j < k → nextFramePos 5 j < nextFramePos 5 k) ∧
    (∀ k, k < 2 → 0 ≤ nextFramePos 5 k ∧ nextFramePos 5 k < 10) ∧
    (barcodeLoop resizeModel 1 4 10 5 2 (5 / 2) none goodVideo []).2 =
      sampleTrace 5 2 :=
  c1_sample_positions resizeModel goodVideo (fun _ => grayImage) 10 5 2 1 4
    (fun _ => rfl) (by norm_num) (by norm_num) (by norm_num)

/-- Claim C2: for every successful run with valid 1 <= nFrames <=
totalFrames, the returned image is the horizontal concatenation, in
sampling order (leftmost slice first), of the nFrames decoded frames
each resized to (width, height), and consequently its width is
nFrames * width and its height is the resolved height (assuming the
external resize honours the requested dimensions). -/
theorem c2_output_assembly (resize : Image → ℕ → ℕ → Image)
    (filter2D : Image → Kernel → Image) (v : Video) (F : ℤ → Image)
    (n w h : ℕ)
    (hF : ∀ i, v.frameAt i = some (F i))
    (hres : ∀ img, (resize img w h).width = w ∧ (resize img w h).height = h)
    (h1 : 1 ≤ n) (h2 : (n : ℚ) ≤ v.totalFrames) :
    (makeBarcode resize filter2D (some v) (PyNum.int n) 0 w (some h)).1 =
      .ok (assembledOutput resize F (v.totalFrames / n) w h n) ∧
    ∀ O, assembledOutput resize F (v.totalFrames / n) w h n = some O →
      O.width = n * w ∧ O.height = h := by
  constructor
  · rw [makeBarcode_run resize filter2D v F n w h 0 hF h1 h2]
    exact blurStep_zero filter2D _
  · exact assembledOutput_dims resize F (v.totalFrames / n) w h n h1 hres

/-- Witness for C2 at a concrete input: a 10-frame video, nFrames = 2,
width 3, height 4, so the output is 6 wide and 4 tall. -/
theorem c2_output_assembly_witness :
    ((makeBarcode resizeModel filterModel (some goodVideo) (PyNum.int 2) 0 3
        (some 4)).1 =
      .ok (assembledOutput resizeModel (fun _ => grayImage)
        (goodVideo.totalFrames / ((2 : ℕ) : ℚ)) 3 4 2)) ∧
    (∀ O, assembledOutput resizeModel (fun _ => grayImage)
        (goodVideo.totalFrames / ((2 : ℕ) : ℚ)) 3 4 2 = some O →
      O.width = 2 * 3 ∧ O.height = 4) :=
  c2_output_assembly resizeModel filterModel goodVideo (fun _ => grayImage) 2 3 4
    (fun _ => rfl) (fun _ => ⟨rfl, rfl⟩) (by norm_num) (by decide)

/-- Counterexample to claim C3 as stated: on a video whose first sampled
frame fails to decode, makeBarcode propagates the IOError and the event
trace of the run contains no release of the video handle (video.release()
on line 85 of main.py sits after the loop and is skipped by the raise). -/
theorem c3_counterexample :
    (makeBarcode resizeModel filterModel (some badVideo) (PyNum.int 2) 0 1
        (some 4)).1 = .error (.ioErrorFrame 2 10) ∧
    Ev.release ∉
      (makeBarcode resizeModel filterModel (some badVideo) (PyNum.int 2) 0 1
        (some 4)).2 := by
  constructor
  · have h1 : (makeBarcode resizeModel filterModel (some badVideo) (PyNum.int 2) 0 1
        (some 4)).1 = .error (.ioErrorFrame (pyTrunc (10 / 2 / 2 : ℚ)) 10) := rfl
    rw [h1]
    have h2 : pyTrunc (10 / 2 / 2 : ℚ) = 2 := by
      unfold pyTrunc
      rw [if_pos (by norm_num)]
      norm_num
    rw [h2]
  · decide

/-- Claim C3 (amended): makeBarcode releases the video handle when the
main loop completes normally, but when a decode failure aborts the loop
the IOError propagates without the handle being released. -/
theorem c3_release_only_on_completion (resize : Image → ℕ → ℕ → Image)
    (filter2D : Image → Kernel → Image) (v bad : Video) (F : ℤ → Image)
    (n w h : ℕ) (blur : ℤ)
    (hF : ∀ i, v.frameAt i = some (F i)) (h1 : 1 ≤ n)
    (h2 : (n : ℚ) ≤ v.totalFrames) (h2b : (n : ℚ) ≤ bad.totalFrames)
    (hbad : bad.frameAt (pyTrunc (bad.totalFrames / n / 2)) = none) :
    Ev.release ∈
      (makeBarcode resize filter2D (some v) (PyNum.int n) blur w (some h)).2 ∧
    (makeBarcode resize filter2D (some bad) (PyNum.int n) blur w (some h)).1 =
      .error (.ioErrorFrame (pyTrunc (bad.totalFrames / n / 2)) bad.totalFrames) ∧
    Ev.release ∉
      (makeBarcode resize filter2D (some bad) (PyNum.int n) blur w (some h)).2 := by
  have hfail := makeBarcode_fail resize filter2D bad F n w h 0 blur h1 h2b h1
    (fun i hi => absurd hi (Nat.not_lt_zero i)) hbad
  refine ⟨?_, ?_, ?_⟩
  · rw [makeBarcode_run resize filter2D v F n w h blur hF h1 h2]
    simp
  · rw [hfail]
    rfl
  · rw [hfail]
    simp [sampleTrace]

/-- Witness for the amended C3: a fully decodable 10-frame video is
released; a video failing at the first sampled frame is not. -/
theorem c3_release_only_on_completion_witness :
    Ev.release ∈
      (makeBarcode resizeModel filterModel (some goodVideo) (PyNum.int 2) 0 1
        (some 4)).2 ∧
    (makeBarcode resizeModel filterModel (some badVideo) (PyNum.int 2) 0 1
        (some 4)).1 =
      .error (.ioErrorFrame (pyTrunc (badVideo.totalFrames / ((2 : ℕ) : ℚ) / 2))
        badVideo.totalFrames) ∧
    Ev.release ∉
      (makeBarcode resizeModel filterModel (some badVideo) (PyNum.int 2) 0 1
        (some 4)).2 :=
  c3_release_only_on_completion resizeModel filterModel goodVideo badVideo
    (fun _ => grayImage) 2 1 4 0 (fun _ => rfl) (by norm_num)
    (by norm_num [goodVideo]) (by norm_num [badVideo]) rfl

/-- Claim C4 (code bug evaluation): on a 100-frame video with
nFrames = 101, the over-count branch of getInterval attempts to build its
error message by concatenating the float totalFrames into a string, so
the run fails with TypeError rather than the intended ValueError; no
frame is read (the trace is empty). -/
theorem c4_overcount_typeerror :
    makeBarcode resizeModel filterModel
      (some (Video.mk 100 (fun _ => some grayImage) 0))
      (PyNum.int 101) 0 1 (some 4) =
      (.error (.typeError "can only concatenate str (not float) to str"), []) :=
  rfl

/-- Claim C5: with blurAmount = 0 the returned image is exactly the
unblurred assembly and no convolution is applied; with blurAmount = k > 0
the returned image is the assembled image passed through the external 2D
filter with a k-by-k kernel that is zero everywhere except column
(k - 1) / 2 (integer division), every entry of which is 1 / k. -/
theorem c5_blur_semantics (resize : Image → ℕ → ℕ → Image)
    (filter2D : Image → Kernel → Image) (v : Video) (F : ℤ → Image)
    (n w h : ℕ) (k : ℤ)
    (hF : ∀ i, v.frameAt i = some (F i)) (h1 : 1 ≤ n)
    (h2 : (n : ℚ) ≤ v.totalFrames) (hk : 0 < k) :
    (makeBarcode resize filter2D (some v) (PyNum.int n) 0 w (some h)).1 =
      .ok (assembledOutput resize F (v.totalFrames / n) w h n) ∧
    (makeBarcode resize filter2D (some v) (PyNum.int n) k w (some h)).1 =
      .ok ((assembledOutput resize F (v.totalFrames / n) w h n).map
        (fun o => filter2D o (specBlurKernel k))) ∧
    ((specBlurKernel k).rows = k.toNat ∧ (specBlurKernel k).cols = k.toNat ∧
     ∀ i j : ℕ, (specBlurKernel k).entry i j =
       if (j : ℤ) = (k - 1) / 2 then 1 / (k : ℚ) else 0) := by
  refine ⟨?_, ?_, rfl, rfl, fun i j => rfl⟩
  · rw [makeBarcode_run resize filter2D v F n w h 0 hF h1 h2]
    exact blurStep_zero filter2D _
  · rw [makeBarcode_run resize filter2D v F n w h k hF h1 h2]
    obtain ⟨O, hO⟩ := assembledOutput_some resize F (v.totalFrames / n) w h n h1
    rw [hO, blurStep_pos filter2D O k hk]
    rfl

/-- Witness for C5 at a concrete input: a 10-frame video, nFrames = 2,
blur 3 versus blur 0. -/
theorem c5_blur_semantics_witness :
    (makeBarcode resizeModel filterModel (some goodVideo) (PyNum.int 2) 0 1
        (some 4)).1 =
      .ok (assembledOutput resizeModel (fun _ => grayImage)
        (goodVideo.totalFrames / ((2 : ℕ) : ℚ)) 1 4 2) ∧
    (makeBarcode resizeModel filterModel (some goodVideo) (PyNum.int 2) 3 1
        (some 4)).1 =
      .ok ((assembledOutput resizeModel (fun _ => grayImage)
        (goodVideo.totalFrames / ((2 : ℕ) : ℚ)) 1 4 2).map
        (fun o => filterModel o (specBlurKernel 3))) ∧
    ((specBlurKernel 3).rows = (3 : ℤ).toNat ∧
     (specBlurKernel 3).cols = (3 : ℤ).toNat ∧
     ∀ i j : ℕ, (specBlurKernel 3).entry i j =
       if (j : ℤ) = ((3 : ℤ) - 1) / 2 then 1 / ((3 : ℤ) : ℚ) else 0) :=
  c5_blur_semantics resizeModel filterModel goodVideo (fun _ => grayImage) 2 1 4 3
    (fun _ => rfl) (by norm_num) (by decide) (by decide)

/-- Claim C6: for every nFrames that is less than 1 or non-integral,
makeBarcode fails with the ValueError raised by getInterval and no frame
is read (the event trace of the run is empty). -/
theorem c6_invalid_nframes (resize : Image → ℕ → ℕ → Image)
    (filter2D : Image → Kernel → Image) (v : Video) (nf : PyNum) (blur : ℤ)
    (w : ℕ) (height : Option ℕ)
    (h : nf.toRat < 1 ∨ nf.toRat.den ≠ 1) :
    makeBarcode resize filter2D (some v) nf blur w height =
      (.error (.valueError "nFrames must be an integer greater than zero"), []) := by
  have hcond : nf.toRat < 1 ∨ nf.isInt = false := by
    rcases h with h | h
    · exact Or.inl h
    · right
      cases nf with
      | int m =>
        exfalso
        apply h
        simp [PyNum.toRat]
      | float q => rfl
  have hgi : getInterval v.totalFrames nf =
      .error (.valueError "nFrames must be an integer greater than zero") := by
    unfold getInterval
    rw [if_pos hcond]
  simp only [makeBarcode, getVideoFile, hgi]

/-- Witness for C6 at a concrete input: nFrames = 0. -/
theorem c6_invalid_nframes_witness :
    makeBarcode resizeModel filterModel (some goodVideo) (PyNum.int 0) 7 1 none =
      (.error (.valueError "nFrames must be an integer greater than zero"), []) :=
  c6_invalid_nframes resizeModel filterModel goodVideo (PyNum.int 0) 7 1 none
    (Or.inl (by decide))

/-- Claim C7: when height is omitted, the resolved slice height is the
native height (shape 0) of the frame decoded by the probe read, which is
the frame at index 0 for a freshly opened video; and the probe does not
disturb sampling: the trace shows the probe read at index 0 followed by
the loop seeking to and reading the truncated sample positions starting
at int(interval / 2), unshifted by the probe having advanced the
cursor, because every loop iteration seeks explicitly before reading. -/
theorem c7_height_inference (resize : Image → ℕ → ℕ → Image)
    (filter2D : Image → Kernel → Image) (v : Video) (F : ℤ → Image) (n w : ℕ)
    (hF : ∀ i, v.frameAt i = some (F i)) (hpos : v.pos = 0)
    (h1 : 1 ≤ n) (h2 : (n : ℚ) ≤ v.totalFrames) :
    (makeBarcode resize filter2D (some v) (PyNum.int n) 0 w none).1 =
      .ok (assembledOutput resize F (v.totalFrames / n) w (F 0).height n) ∧
    (makeBarcode resize filter2D (some v) (PyNum.int n) 0 w none).2 =
      Ev.read 0 true :: (sampleTrace (v.totalFrames / n) n ++ [Ev.release]) := by
  have hgi := getInterval_ok v.totalFrames n h1 h2
  have hc : (PyNum.int (n : ℤ)).loopCount = n := by
    simp [PyNum.loopCount]
  have hprobe : heightProbe v none =
      (.ok ((F 0).height, Video.mk v.totalFrames v.frameAt (0 + 1)),
       [Ev.read 0 true]) := by
    simp only [heightProbe, getHeight, videoRead, hpos, hF 0]
  have hF2 : ∀ i, (Video.mk v.totalFrames v.frameAt (0 + 1)).frameAt i =
      some (F i) := hF
  have hl := barcodeLoop_ok resize w (F 0).height v.totalFrames
    (v.totalFrames / n) F n 0 none (Video.mk v.totalFrames v.frameAt (0 + 1))
    [Ev.read 0 true] hF2
  simp only [makeBarcode, getVideoFile, hgi, hprobe, hc]
  rw [show v.totalFrames / (n : ℚ) / 2 = nextFramePos (v.totalFrames / n) 0 from rfl,
    hl]
  simp only [Nat.zero_add]
  constructor
  · exact blurStep_zero filter2D _
  · simp [sampleTrace]

/-- Witness for C7 at a concrete input: default height on a 10-frame
video of native height 4, nFrames = 2. -/
theorem c7_height_inference_witness :
    (makeBarcode resizeModel filterModel (some goodVideo) (PyNum.int 2) 0 3
        none).1 =
      .ok (assembledOutput resizeModel (fun _ => grayImage)
        (goodVideo.totalFrames / ((2 : ℕ) : ℚ)) 3
        ((fun (_ : ℤ) => grayImage) 0).height 2) ∧
    (makeBarcode resizeModel filterModel (some goodVideo) (PyNum.int 2) 0 3
        none).2 =
      Ev.read 0 true ::
        (sampleTrace (goodVideo.totalFrames / ((2 : ℕ) : ℚ)) 2 ++ [Ev.release]) :=
  c7_height_inference resizeModel filterModel goodVideo (fun _ => grayImage) 2 3
    (fun _ => rfl) rfl (by norm_num) (by decide)

/-- Claim C8: when decoding the frame requested at loop step j fails
(all earlier steps having decoded), makeBarcode raises the IOError
carrying the failing truncated frame index int(nextFrame) and the total
frame count, the result holds no image (no partial output), and the
trace shows each step seeking and reading exactly once (no retry),
ending at the failed read. -/
theorem c8_decode_error (resize : Image → ℕ → ℕ → Image)
    (filter2D : Image → Kernel → Image) (v : Video) (F : ℤ → Image)
    (n w h j : ℕ) (blur : ℤ)
    (h1 : 1 ≤ n) (h2 : (n : ℚ) ≤ v.totalFrames) (hj : j < n)
    (hok : ∀ i, i < j →
        v.frameAt (pyTrunc (nextFramePos (v.totalFrames / n) i)) =
          some (F (pyTrunc (nextFramePos (v.totalFrames / n) i))))
    (hbad : v.frameAt (pyTrunc (nextFramePos (v.totalFrames / n) j)) = none) :
    makeBarcode resize filter2D (some v) (PyNum.int n) blur w (some h) =
      (.error (.ioErrorFrame (pyTrunc (nextFramePos (v.totalFrames / n) j))
          v.totalFrames),
       sampleTrace (v.totalFrames / n) j ++
       [Ev.seek (pyTrunc (nextFramePos (v.totalFrames / n) j)),
        Ev.read (pyTrunc (nextFramePos (v.totalFrames / n) j)) false]) :=
  makeBarcode_fail resize filter2D v F n w h j blur h1 h2 hj hok hbad

/-- Witness for C8 at a concrete input: a 10-frame video decoding frames
below 3 only; with nFrames = 2 the loop reads frame 2 then fails at
frame 7. -/
theorem c8_decode_error_witness :
    makeBarcode resizeModel filterModel (some mixedVideo) (PyNum.int 2) 0 1
        (some 4) =
      (.error (.ioErrorFrame
          (pyTrunc (nextFramePos (mixedVideo.totalFrames / ((2 : ℕ) : ℚ)) 1))
          mixedVideo.totalFrames),
       sampleTrace (mixedVideo.totalFrames / ((2 : ℕ) : ℚ)) 1 ++
       [Ev.seek (pyTrunc (nextFramePos (mixedVideo.totalFrames / ((2 : ℕ) : ℚ)) 1)),
        Ev.read (pyTrunc (nextFramePos (mixedVideo.totalFrames / ((2 : ℕ) : ℚ)) 1))
          false]) :=
  c8_decode_error resizeModel filterModel mixedVideo (fun _ => grayImage) 2 1 4 1 0
    (by norm_num) (by decide) (by norm_num)
    (by
      intro i hi
      have hi0 : i = 0 := by omega
      subst hi0
      have hx : pyTrunc (nextFramePos (mixedVideo.totalFrames / ((2 : ℕ) : ℚ)) 0) = 2 := by
        show pyTrunc (mixedVideo.totalFrames / ((2 : ℕ) : ℚ) / 2) = 2
        unfold pyTrunc
        rw [if_pos (by norm_num [mixedVideo])]
        norm_num [mixedVideo]
      rw [hx]
      rfl)
    (by
      have hx : pyTrunc (nextFramePos (mixedVideo.totalFrames / ((2 : ℕ) : ℚ)) 1) = 7 := by
        show pyTrunc (mixedVideo.totalFrames / ((2 : ℕ) : ℚ) / 2 +
          mixedVideo.totalFrames / ((2 : ℕ) : ℚ)) = 7
        unfold pyTrunc
        rw [if_pos (by norm_num [mixedVideo])]
        norm_num [mixedVideo]
      rw [hx]
      rfl)

/-- Claim C9: makeBarcode opens the video before validating nFrames:
when the source cannot be opened it fails with FileNotFoundError
regardless of nFrames (even an invalid one), with an empty trace; and
an nFrames validation error is raised only on a successfully opened
video (shown for the invalid value 0). -/
theorem c9_open_before_validation (resize : Image → ℕ → ℕ → Image)
    (filter2D : Image → Kernel → Image) (nf : PyNum) (blur : ℤ) (w : ℕ)
    (height : Option ℕ) :
    makeBarcode resize filter2D none nf blur w height =
      (.error (.fileNotFound "Video not found"), []) ∧
    ∀ v : Video, makeBarcode resize filter2D (some v) (PyNum.int 0) blur w height =
      (.error (.valueError "nFrames must be an integer greater than zero"), []) := by
  refine ⟨rfl, fun v => ?_⟩
  have hgi : getInterval v.totalFrames (PyNum.int 0) =
      .error (.valueError "nFrames must be an integer greater than zero") := by
    unfold getInterval
    rw [if_pos (Or.inl (by norm_num [PyNum.toRat]))]
  simp only [makeBarcode, getVideoFile, hgi]

/-- Claim C10: for every blur amount b < 0, addBlur fails while building
the b-by-b kernel (numpy rejects negative dimensions with a ValueError),
so the blur branch of makeBarcode produces no image and the whole run
fails; and addBlur succeeds for every amount >= 1. -/
theorem c10_negative_blur (resize : Image → ℕ → ℕ → Image)
    (filter2D : Image → Kernel → Image) (img : Image) (v : Video)
    (F : ℤ → Image) (n w h : ℕ) (b : ℤ)
    (hF : ∀ i, v.frameAt i = some (F i)) (h1 : 1 ≤ n)
    (h2 : (n : ℚ) ≤ v.totalFrames) (hb : b < 0) :
    addBlur filter2D img b =
      .error (.valueError "negative dimensions are not allowed") ∧
    (∀ a : ℤ, 1 ≤ a → ∃ o, addBlur filter2D img a = .ok o) ∧
    addBlur filter2D img 0 =
      .error (.indexError "index is out of bounds for axis 1") ∧
    (makeBarcode resize filter2D (some v) (PyNum.int n) b w (some h)).1 =
      .error (.valueError "negative dimensions are not allowed") := by
  refine ⟨addBlur_neg filter2D img b hb, ?_, ?_, ?_⟩
  · intro a ha
    exact ⟨filter2D img (specBlurKernel a), addBlur_pos filter2D img a ha⟩
  · have hz0 : npZeros 0 0 = .ok ⟨0, 0, fun _ _ => 0⟩ := by
      unfold npZeros
      rw [if_neg (by norm_num)]
      rfl
    have hct : pyTrunc ((((0 : ℤ) : ℚ) - 1) / 2) = 0 := by
      unfold pyTrunc
      rw [if_neg (by norm_num)]
      norm_num
    have hsc0 : kernelSetColOnes ⟨0, 0, fun _ _ => 0⟩ 0 =
        .error (.indexError "index is out of bounds for axis 1") := by
      unfold kernelSetColOnes
      rw [if_neg (by norm_num), if_neg (by norm_num)]
    simp only [addBlur, hz0, hct, hsc0]
  · rw [makeBarcode_run resize filter2D v F n w h b hF h1 h2]
    obtain ⟨O, hO⟩ := assembledOutput_some resize F (v.totalFrames / n) w h n h1
    rw [hO]
    have hb0 : b ≠ 0 := by omega
    simp only [blurStep, ne_eq, hb0, not_false_eq_true, if_true]
    rw [addBlur_neg filter2D O b hb]

/-- Witness for C10 at a concrete input: blur amount -3 on a 10-frame
video, nFrames = 2. -/
theorem c10_negative_blur_witness :
    addBlur filterModel grayImage (-3) =
      .error (.valueError "negative dimensions are not allowed") ∧
    (∀ a : ℤ, 1 ≤ a → ∃ o, addBlur filterModel grayImage a = .ok o) ∧
    addBlur filterModel grayImage 0 =
      .error (.indexError "index is out of bounds for axis 1") ∧
    (makeBarcode resizeModel filterModel (some goodVideo) (PyNum.int 2) (-3) 1
        (some 4)).1 =
      .error (.valueError "negative dimensions are not allowed") :=
  c10_negative_blur resizeModel filterModel grayImage goodVideo
    (fun _ => grayImage) 2 1 4 (-3) (fun _ => rfl) (by norm_num) (by decide)
    (by decide)

end VideoBarcode
